import Mathlib

/-!
Wallet service: shallow embedding and verification.

This file embeds the core of the wallet service
(src/services/wallet.service.ts of Sachin-Yawalkar/wallet-service)
in Lean 4 and proves/refutes the frozen specification claims about it.

Modelling choices, from the source:
* DynamoDB tables (Users keyed by userId, Transactions keyed by
  idempotentKey) are association lists with in-place replacement on put.
* JS numbers are rationals; the JS idiom x || d on a numeric
  attribute (undefined and 0 are falsy) is the function jsOr below.
* JS parseFloat is modelled as a prefix parser over the ECMA-262
  StrDecimalLiteral grammar (optional sign, then either the Infinity
  literal or digits with optional fraction and exponent; trailing
  garbage ignored), returning none exactly when parseFloat would return
  NaN and a JsNum (a finite rational or one of the two infinities)
  otherwise.
* Thrown Error values become an error enumeration WErr, one constructor
  per distinct throw site / message of the service.
* Date.now-based transaction ids and ISO timestamps are modelled by a
  monotone counter stored in the database state.
* The sequential semantics (function transact) threads one database
  through every storage interaction; the adversarial-interleaving
  semantics (function transactTrace) lets every storage interaction
  observe a possibly different database state, as concurrent writers can
  change DynamoDB between the service's await points, and additionally
  counts how many TransactWriteCommand submissions the call performs.
-/

set_option maxRecDepth 100000

deriving instance DecidableEq for Except

namespace Wallet

/-- A DynamoDB table: an association list from string keys to items,
with in-place replacement on put. -/
abbrev Store (β : Type) := List (String × β)

namespace Store

/-- Point read (GetCommand). -/
def get {β : Type} : Store β → String → Option β
  | [], _ => none
  | (k', v') :: rest, k => if k' = k then some v' else get rest k

/-- Unconditional write (PutCommand / UpdateCommand effect): replaces the
item with key k if present, otherwise appends it. -/
def put {β : Type} : Store β → String → β → Store β
  | [], k, v => [(k, v)]
  | (k', v') :: rest, k, v =>
      if k' = k then (k, v) :: rest else (k', v') :: put rest k v

theorem get_put_same {β : Type} (s : Store β) (k : String) (v : β) :
    (s.put k v).get k = some v := by
  induction s with
  | nil => simp [put, get]
  | cons hd tl ih =>
      by_cases h : hd.1 = k
      · simp [put, get, h]
      · simp [put, get, h, ih]

theorem get_put_ne {β : Type} (s : Store β) (k k' : String) (v : β)
    (h : k' ≠ k) : (s.put k v).get k' = s.get k' := by
  have h' : k ≠ k' := Ne.symm h
  induction s with
  | nil => simp [put, get, h']
  | cons hd tl ih =>
      by_cases hk : hd.1 = k
      · simp [put, get, hk, h']
      · by_cases hk' : hd.1 = k'
        · simp [put, get, hk, hk', h]
        · simp [put, get, hk, hk', ih]

theorem mem_put {β : Type} (s : Store β) (k : String) (v : β) (p : String × β)
    (h : p ∈ s.put k v) : p = (k, v) ∨ p ∈ s := by
  induction s with
  | nil => simpa [put] using h
  | cons hd tl ih =>
      by_cases hk : hd.1 = k
      · simp only [put, hk, if_pos rfl] at h
        rcases List.mem_cons.mp h with h | h
        · exact Or.inl h
        · exact Or.inr (List.mem_cons_of_mem _ h)
      · simp only [put, if_neg hk] at h
        rcases List.mem_cons.mp h with h | h
        · exact Or.inr (h ▸ List.mem_cons_self _ _)
        · rcases ih h with h | h
          · exact Or.inl h
          · exact Or.inr (List.mem_cons_of_mem _ h)

theorem get_mem {β : Type} (s : Store β) (k : String) (v : β)
    (h : s.get k = some v) : (k, v) ∈ s := by
  induction s with
  | nil => simp [get] at h
  | cons hd tl ih =>
      by_cases hk : hd.1 = k
      · simp only [get, if_pos hk] at h
        obtain rfl : hd.2 = v := by injection h
        exact hk ▸ List.mem_cons_self _ _
      · simp only [get, if_neg hk] at h
        exact List.mem_cons_of_mem _ (ih h)

end Store

/-- JS x || d for an optional numeric attribute: undefined (absent) and 0
are falsy, so both fall back to the default d. -/
def jsOr (v : Option ℚ) (d : ℚ) : ℚ :=
  match v with
  | none => d
  | some b => if b = 0 then d else b

theorem jsOr_zero (v : Option ℚ) : jsOr v 0 = v.getD 0 := by
  cases v with
  | none => rfl
  | some b =>
      by_cases hb : b = 0 <;> simp [jsOr, hb]

theorem jsOr_self (v : ℚ) : jsOr (some v) v = v := by
  by_cases hv : v = 0 <;> simp [jsOr, hv]

/-- Value of a digit list read in base 10. -/
def digitsToNat (ds : List Char) : ℕ :=
  ds.foldl (fun acc c => 10 * acc + (c.toNat - 48)) 0

/-- Exponent part of a JS float literal: optional sign then digits;
an empty digit run contributes exponent 0 (parseFloat of "1e" is 1). -/
def parseExp (cs : List Char) : ℤ :=
  let p : ℤ × List Char :=
    match cs with
    | '-' :: r => (-1, r)
    | '+' :: r => (1, r)
    | r => (1, r)
  let ds := p.2.takeWhile Char.isDigit
  if ds.isEmpty then 0 else p.1 * digitsToNat ds

/-- A JS number as produced by a non-NaN parseFloat: a finite
(rational-representable) value or one of the two IEEE infinities. -/
inductive JsNum where
  | fin (q : ℚ)
  | posInf
  | negInf
deriving DecidableEq

/-- The JS comparison numericAmount <= 0 on a non-NaN number:
-Infinity <= 0 is true, +Infinity <= 0 is false. -/
def JsNum.leZero : JsNum → Bool
  | .fin q => decide (q ≤ 0)
  | .posInf => false
  | .negInf => true

/-- The Infinity literal of the ECMA-262 StrUnsignedDecimalLiteral
grammar (exactly this capitalisation). -/
def infinityChars : List Char := ['I', 'n', 'f', 'i', 'n', 'i', 't', 'y']

/-- Model of JS parseFloat: skip leading whitespace, optional sign, then
either the Infinity literal or integer digits with optional fraction and
optional exponent; parses the longest such prefix and ignores the rest;
returns none exactly when the JS function returns NaN (no valid
prefix). -/
def parseFloat (s : String) : Option JsNum :=
  let cs := s.toList.dropWhile Char.isWhitespace
  let sp : Bool × List Char :=
    match cs with
    | '-' :: r => (true, r)
    | '+' :: r => (false, r)
    | r => (false, r)
  if infinityChars.isPrefixOf sp.2 then
    some (if sp.1 then .negInf else .posInf)
  else
    let ip := sp.2.takeWhile Char.isDigit
    let rest1 := sp.2.dropWhile Char.isDigit
    let fr : List Char × List Char :=
      match rest1 with
      | '.' :: r => (r.takeWhile Char.isDigit, r.dropWhile Char.isDigit)
      | r => ([], r)
    if ip.isEmpty && fr.1.isEmpty then none
    else
      let sign : ℚ := if sp.1 then -1 else 1
      let mant : ℚ :=
        (digitsToNat ip : ℚ) + (digitsToNat fr.1 : ℚ) / (10 : ℚ) ^ fr.1.length
      let e : ℤ :=
        match fr.2 with
        | 'e' :: r => parseExp r
        | 'E' :: r => parseExp r
        | _ => 0
      some (.fin (sign * mant * (10 : ℚ) ^ e))

/-- An item of the Users table. The balance attribute can be absent
(Option), which the service treats as 0 through jsOr. Timestamps are
counter values (the source stores ISO strings). -/
structure UserItem where
  userId : String
  balance : Option ℚ
  createdAt : Option ℕ
  updatedAt : Option ℕ
deriving DecidableEq

/-- Transaction direction. -/
inductive TxType where
  | credit
  | debit
deriving DecidableEq

/-- An item of the Transactions table (keyed by idempotentKey). -/
structure TxItem where
  transactionId : ℕ
  userId : String
  amount : ℚ
  type : TxType
  newBalance : ℚ
  timestamp : ℕ
deriving DecidableEq

/-- The whole persistent state: both DynamoDB tables plus the counter
modelling Date.now-based id/timestamp generation. -/
structure Db where
  users : Store UserItem
  txs : Store TxItem
  counter : ℕ
deriving DecidableEq

def Db.empty : Db := ⟨[], [], 0⟩

/-- Error outcomes, one per distinct throw site of the service.
requiredFields, requiredUserId, amountNotPositive and badType are the
validation errors the transport maps to HTTP 400 (InvalidInput);
userNotFound maps to 404; insufficientBalance and concurrentRetry map
to 409 (InsufficientBalance / ConcurrencyConflict). nonFiniteAmount is
the storage-client error raised when a TransactWriteCommand carries an
infinite number: the lib-dynamodb document marshaller rejects non-finite
numbers before anything is written, the error is not a
TransactionCanceledException, and the service rethrows it as-is (the
spec's StorageUnavailable class, mapped to 500 by the transport since
its message matches none of the 400/404/409 patterns). -/
inductive WErr where
  | requiredFields
  | requiredUserId
  | amountNotPositive
  | badType
  | userNotFound (userId : String)
  | insufficientBalance
  | concurrentRetry
  | nonFiniteAmount
deriving DecidableEq

/-- Result shape of getCurrentBalance. -/
structure GetBalanceOutput where
  userId : String
  balance : ℚ
deriving DecidableEq

/-- Input shape of transact. The type field is a raw string because the
service validates it dynamically at runtime. -/
structure TransactInput where
  idempotentKey : String
  userId : String
  amount : String
  type : String
deriving DecidableEq

/-- Result shape of transact. A present message field marks a replayed
(idempotent) outcome; fresh successes carry no message. -/
structure TransactOutput where
  success : Bool
  transactionId : ℕ
  newBalance : ℚ
  message : Option String
deriving DecidableEq

def msgIdem : String := "Transaction already processed (idempotent)"

def msgIdemConc : String :=
  "Transaction already processed (idempotent - concurrent request)"

/-- getCurrentBalance: read the Users item, default a falsy balance
attribute to 0 (result.Item.balance || 0). -/
def getCurrentBalance (db : Db) (userId : String) :
    Except WErr GetBalanceOutput :=
  if userId = "" then .error .requiredUserId
  else
    match db.users.get userId with
    | none => .error (.userNotFound userId)
    | some item => .ok ⟨item.userId, jsOr item.balance 0⟩

/-- createUser: an unconditional PutCommand that writes the item whole;
there is no insert-if-absent guard, so an existing item is replaced. -/
def createUser (db : Db) (userId : String) (initialBalance : ℚ := 0) : Db :=
  { db with
      users := db.users.put userId
        ⟨userId, some initialBalance, some db.counter, some db.counter⟩,
      counter := db.counter + 1 }

/-- Input validation of transact, in source order: the four truthiness
checks, then parseFloat with the isNaN-or-non-positive check, then the
direction check. A +Infinity amount passes this validation (isNaN false,
<= 0 false); a -Infinity amount is rejected as non-positive. -/
def validate (i : TransactInput) : Except WErr (JsNum × TxType) :=
  if i.idempotentKey = "" ∨ i.userId = "" ∨ i.amount = "" ∨ i.type = "" then
    .error .requiredFields
  else
    match parseFloat i.amount with
    | none => .error .amountNotPositive
    | some n =>
      if n.leZero then .error .amountNotPositive
      else if i.type = "credit" then .ok (n, .credit)
      else if i.type = "debit" then .ok (n, .debit)
      else .error .badType

/-- The signed delta: +amount for credit, -amount for debit. -/
def TxType.delta : TxType → ℚ → ℚ
  | .credit, a => a
  | .debit, a => -a

def TxType.isDebit : TxType → Bool
  | .credit => false
  | .debit => true

/-- The balance attribute of a Users item, if the item exists and the
attribute is present (Item?.balance). -/
def itemBalance (db : Db) (userId : String) : Option ℚ :=
  (db.users.get userId).bind (fun u => u.balance)

/-- The debit guard of the atomic commit (ConditionExpression
"balance >= :minBalance" with minBalance = amount): false when the item
or its balance attribute is absent. -/
def debitGuardOk (db : Db) (userId : String) (amount : ℚ) : Bool :=
  match db.users.get userId with
  | some u =>
      match u.balance with
      | some b => decide (amount ≤ b)
      | none => false
  | none => false

/-- Both conditions of the TransactWriteCommand: the Transactions insert
is guarded by attribute_not_exists(idempotentKey); the Users update is
guarded by the balance floor only for debits. -/
def commitOk (db : Db) (key userId : String) (ty : TxType) (amount : ℚ) : Bool :=
  (db.txs.get key).isNone &&
    (match ty with
     | .credit => true
     | .debit => debitGuardOk db userId amount)

/-- The Users half of the commit: UpdateExpression "ADD balance :delta
SET updatedAt = :now"; DynamoDB ADD treats a missing attribute as 0 and
creates the item when absent. -/
def addBalance (db : Db) (userId : String) (delta : ℚ) : Db :=
  match db.users.get userId with
  | some u =>
      let u' : UserItem :=
        { u with balance := some (u.balance.getD 0 + delta),
                 updatedAt := some db.counter }
      { db with users := db.users.put userId u' }
  | none =>
      let u' : UserItem := ⟨userId, some delta, none, some db.counter⟩
      { db with users := db.users.put userId u' }

/-- The all-or-nothing effect of a successful TransactWriteCommand:
insert the transaction record and apply the balance delta; the counter
advance models the fresh transactionId/timestamp consumed. -/
def commitWrite (db : Db) (i : TransactInput) (a : ℚ) (ty : TxType)
    (projected : ℚ) : Db :=
  let r : TxItem := ⟨db.counter, i.userId, a, ty, projected, db.counter⟩
  let db1 : Db := { db with txs := db.txs.put i.idempotentKey r }
  let db2 := addBalance db1 i.userId (ty.delta a)
  { db2 with counter := db.counter + 1 }

/-- transact after validation, under sequential (no-interleaving)
semantics: every storage interaction observes the single threaded state. -/
def transactCore (db : Db) (i : TransactInput) (a : ℚ) (ty : TxType) :
    Except WErr TransactOutput × Db :=
  match db.txs.get i.idempotentKey with
  | some r =>
      (.ok ⟨true, r.transactionId, r.newBalance, some msgIdem⟩, db)
  | none =>
      match db.users.get i.userId with
      | none => (.error (.userNotFound i.userId), db)
      | some user =>
          let currentBalance := jsOr user.balance 0
          let balanceChange := ty.delta a
          let projected := currentBalance + balanceChange
          if projected < 0 then (.error .insufficientBalance, db)
          else if commitOk db i.idempotentKey i.userId ty a then
            let db1 := commitWrite db i a ty projected
            (.ok ⟨true, db.counter, jsOr (itemBalance db1 i.userId) projected,
                  none⟩, db1)
          else
            match db.txs.get i.idempotentKey with
            | some r2 =>
                (.ok ⟨true, r2.transactionId,
                      jsOr (itemBalance db i.userId) r2.newBalance,
                      some msgIdemConc⟩, db)
            | none =>
                let latest := jsOr (itemBalance db i.userId) 0
                if latest + balanceChange < 0 then
                  (.error .insufficientBalance, db)
                else (.error .concurrentRetry, db)

/-- transact after validation when the parsed amount is one of the JS
infinities (+Infinity is the one that passes validation). The
idempotency probe and the account read behave as for any amount. The
balance arithmetic follows IEEE semantics: a finite current balance
plus an infinite balanceChange is that same infinity, so projNeg — an
infinitely negative balanceChange, i.e. a debit of +Infinity (or a
credit of -Infinity) — makes the optimistic pre-check fail with
InsufficientBalance before any write. An infinitely positive projection
passes the pre-check and reaches the TransactWriteCommand, where the
document client rejects the non-finite number at marshalling time
before anything is written; the thrown error is not a
TransactionCanceledException, so the service rethrows it as-is
(nonFiniteAmount), with the state unchanged. -/
def transactInfinite (db : Db) (i : TransactInput) (projNeg : Bool) :
    Except WErr TransactOutput × Db :=
  match db.txs.get i.idempotentKey with
  | some r =>
      (.ok ⟨true, r.transactionId, r.newBalance, some msgIdem⟩, db)
  | none =>
      match db.users.get i.userId with
      | none => (.error (.userNotFound i.userId), db)
      | some _ =>
          if projNeg then (.error .insufficientBalance, db)
          else (.error .nonFiniteAmount, db)

/-- transact: validation then the core, sequential semantics; infinite
amounts are dispatched to transactInfinite with the sign of their
balanceChange. -/
def transact (db : Db) (i : TransactInput) :
    Except WErr TransactOutput × Db :=
  match validate i with
  | .error e => (.error e, db)
  | .ok (.fin a, ty) => transactCore db i a ty
  | .ok (.posInf, ty) => transactInfinite db i ty.isDebit
  | .ok (.negInf, ty) => transactInfinite db i (!ty.isDebit)

/-- The operations the transport layer can issue against the core. -/
inductive Op where
  | createOp (userId : String) (initialBalance : ℚ)
  | transactOp (i : TransactInput)
  | getBalanceOp (userId : String)
deriving DecidableEq

/-- State effect of one operation (getCurrentBalance is read-only). -/
def runOp (db : Db) : Op → Db
  | .createOp u b => createUser db u b
  | .transactOp i => (transact db i).2
  | .getBalanceOp _ => db

/-- State after a sequence of operations. -/
def runOps (db : Db) (ops : List Op) : Db := ops.foldl runOp db

/-- True unless the operation is an account creation with a negative
initial balance. -/
def createNonneg : Op → Bool
  | .createOp _ b => decide (0 ≤ b)
  | _ => true

/-- Every stored balance attribute is non-negative (an absent attribute
reads as 0). -/
def dbNonneg (db : Db) : Prop :=
  ∀ p ∈ db.users, 0 ≤ p.2.balance.getD 0

/-- transact under adversarial interleaving: each successive storage
interaction may observe a different database state, because concurrent
writers can change DynamoDB between the service's await points.
dbProbe: state read by the step-1 idempotency probe; dbUser: by the
account read; dbCommit: the snapshot the TransactWriteCommand's guards
are evaluated against; dbAfter: by the post-success balance re-read;
dbCheck: by the cancel-path re-probe of the Transactions table; dbBal:
by the cancel-path balance re-read. The second component counts how many
TransactWriteCommand submissions the call performs. -/
def transactTrace (i : TransactInput)
    (dbProbe dbUser dbCommit dbAfter dbCheck dbBal : Db) :
    Except WErr TransactOutput × ℕ :=
  match validate i with
  | .error e => (.error e, 0)
  | .ok (n, ty) =>
    match dbProbe.txs.get i.idempotentKey with
    | some r => (.ok ⟨true, r.transactionId, r.newBalance, some msgIdem⟩, 0)
    | none =>
      match dbUser.users.get i.userId with
      | none => (.error (.userNotFound i.userId), 0)
      | some user =>
        match n with
        | .fin a =>
          let balanceChange := ty.delta a
          let projected := jsOr user.balance 0 + balanceChange
          if projected < 0 then (.error .insufficientBalance, 0)
          else if commitOk dbCommit i.idempotentKey i.userId ty a then
            (.ok ⟨true, dbCommit.counter,
                  jsOr (itemBalance dbAfter i.userId) projected, none⟩, 1)
          else
            match dbCheck.txs.get i.idempotentKey with
            | some r2 =>
                (.ok ⟨true, r2.transactionId,
                      jsOr (itemBalance dbBal i.userId) r2.newBalance,
                      some msgIdemConc⟩, 1)
            | none =>
                if jsOr (itemBalance dbBal i.userId) 0 + balanceChange < 0 then
                  (.error .insufficientBalance, 1)
                else (.error .concurrentRetry, 1)
        | .posInf =>
          if ty.isDebit then (.error .insufficientBalance, 0)
          else (.error .nonFiniteAmount, 1)
        | .negInf =>
          if ty.isDebit then (.error .nonFiniteAmount, 1)
          else (.error .insufficientBalance, 0)

/-! ## Helper lemmas -/

theorem validate_ok_fin_facts (i : TransactInput) (a : ℚ) (ty : TxType)
    (h : validate i = .ok (.fin a, ty)) :
    0 < a ∧ i.idempotentKey ≠ "" ∧ i.userId ≠ "" ∧
    parseFloat i.amount = some (.fin a) ∧
    ((ty = .credit ∧ i.type = "credit") ∨ (ty = .debit ∧ i.type = "debit")) := by
  unfold validate at h
  by_cases hreq : i.idempotentKey = "" ∨ i.userId = "" ∨ i.amount = "" ∨ i.type = ""
  · simp [hreq] at h
  · rw [if_neg hreq] at h
    push_neg at hreq
    cases hp : parseFloat i.amount with
    | none => simp [hp] at h
    | some n' =>
        simp only [hp] at h
        by_cases hle : n'.leZero = true
        · simp [hle] at h
        · rw [if_neg hle] at h
          by_cases hc : i.type = "credit"
          · rw [if_pos hc] at h
            simp only [Except.ok.injEq, Prod.mk.injEq] at h
            obtain ⟨rfl, rfl⟩ := h
            refine ⟨?_, hreq.1, hreq.2.1, rfl, Or.inl ⟨rfl, hc⟩⟩
            simpa [JsNum.leZero] using lt_of_not_le (by simpa [JsNum.leZero] using hle)
          · rw [if_neg hc] at h
            by_cases hd : i.type = "debit"
            · rw [if_pos hd] at h
              simp only [Except.ok.injEq, Prod.mk.injEq] at h
              obtain ⟨rfl, rfl⟩ := h
              refine ⟨?_, hreq.1, hreq.2.1, rfl, Or.inr ⟨rfl, hd⟩⟩
              simpa [JsNum.leZero] using lt_of_not_le (by simpa [JsNum.leZero] using hle)
            · simp [hd] at h

theorem transact_of_validate_error (db : Db) (i : TransactInput) (e : WErr)
    (h : validate i = .error e) : transact db i = (.error e, db) := by
  simp [transact, h]

theorem transact_of_validate_ok (db : Db) (i : TransactInput) (a : ℚ)
    (ty : TxType) (h : validate i = .ok (.fin a, ty)) :
    transact db i = transactCore db i a ty := by
  simp [transact, h]

theorem transactInfinite_snd (db : Db) (i : TransactInput) (pn : Bool) :
    (transactInfinite db i pn).2 = db := by
  simp only [transactInfinite]
  cases hk : db.txs.get i.idempotentKey with
  | some r => rfl
  | none =>
      cases hu : db.users.get i.userId with
      | none => rfl
      | some u => cases pn <;> simp

theorem transactInfinite_not_ok (db : Db) (i : TransactInput) (pn : Bool)
    (out : TransactOutput) (db' : Db)
    (hkey : db.txs.get i.idempotentKey = none) :
    transactInfinite db i pn ≠ (.ok out, db') := by
  intro h
  simp only [transactInfinite, hkey] at h
  cases hu : db.users.get i.userId with
  | none => simp [hu] at h
  | some u => cases pn <;> simp [hu] at h

theorem transactCore_replay (db : Db) (i : TransactInput) (a : ℚ)
    (ty : TxType) (r : TxItem)
    (h : db.txs.get i.idempotentKey = some r) :
    transactCore db i a ty =
      (.ok ⟨true, r.transactionId, r.newBalance, some msgIdem⟩, db) := by
  simp [transactCore, h]

theorem commitWrite_users (db : Db) (i : TransactInput) (a p : ℚ)
    (ty : TxType) (user : UserItem)
    (huser : db.users.get i.userId = some user) :
    (commitWrite db i a ty p).users =
      db.users.put i.userId
        ⟨user.userId, some (user.balance.getD 0 + ty.delta a),
         user.createdAt, some db.counter⟩ := by
  unfold commitWrite addBalance
  simp [huser]

theorem itemBalance_commitWrite (db : Db) (i : TransactInput) (a p : ℚ)
    (ty : TxType) (user : UserItem)
    (huser : db.users.get i.userId = some user) :
    itemBalance (commitWrite db i a ty p) i.userId =
      some (jsOr user.balance 0 + ty.delta a) := by
  rw [itemBalance, commitWrite_users db i a p ty user huser,
      Store.get_put_same, jsOr_zero]
  rfl

theorem commitWrite_txs_same (db : Db) (i : TransactInput) (a p : ℚ)
    (ty : TxType) :
    (commitWrite db i a ty p).txs.get i.idempotentKey =
      some ⟨db.counter, i.userId, a, ty, p, db.counter⟩ := by
  simp only [commitWrite, addBalance]
  cases h : Store.get db.users i.userId <;>
    simp [h, Store.get_put_same]

theorem commitWrite_txs_ne (db : Db) (i : TransactInput) (a p : ℚ)
    (ty : TxType) (k : String) (hk : k ≠ i.idempotentKey) :
    (commitWrite db i a ty p).txs.get k = db.txs.get k := by
  simp only [commitWrite, addBalance]
  cases h : Store.get db.users i.userId <;>
    simp [h, Store.get_put_ne _ _ _ _ hk]

theorem transactCore_fresh (db : Db) (i : TransactInput) (a : ℚ)
    (ty : TxType) (user : UserItem)
    (hkey : db.txs.get i.idempotentKey = none)
    (huser : db.users.get i.userId = some user)
    (hpos : 0 ≤ jsOr user.balance 0 + ty.delta a)
    (hguard : commitOk db i.idempotentKey i.userId ty a = true) :
    transactCore db i a ty =
      (.ok ⟨true, db.counter, jsOr user.balance 0 + ty.delta a, none⟩,
       commitWrite db i a ty (jsOr user.balance 0 + ty.delta a)) := by
  have hib := itemBalance_commitWrite db i a
    (jsOr user.balance 0 + ty.delta a) ty user huser
  simp only [transactCore, hkey, huser, hguard, if_true,
             if_neg (not_lt.mpr hpos)]
  rw [hib, jsOr_self]

theorem transactCore_ok_fresh (db : Db) (i : TransactInput) (a : ℚ)
    (ty : TxType) (user : UserItem) (out : TransactOutput) (db' : Db)
    (hkey : db.txs.get i.idempotentKey = none)
    (huser : db.users.get i.userId = some user)
    (hrun : transactCore db i a ty = (.ok out, db')) :
    0 ≤ jsOr user.balance 0 + ty.delta a ∧
    commitOk db i.idempotentKey i.userId ty a = true ∧
    out = ⟨true, db.counter, jsOr user.balance 0 + ty.delta a, none⟩ ∧
    db' = commitWrite db i a ty (jsOr user.balance 0 + ty.delta a) := by
  by_cases hpos : jsOr user.balance 0 + ty.delta a < 0
  · simp [transactCore, hkey, huser, if_pos hpos] at hrun
  · by_cases hg : commitOk db i.idempotentKey i.userId ty a = true
    · rw [transactCore_fresh db i a ty user hkey huser
          (not_lt.mp hpos) hg] at hrun
      have h1 := congrArg Prod.fst hrun
      have h2 := congrArg Prod.snd hrun
      simp only at h1 h2
      injection h1 with h1
      exact ⟨not_lt.mp hpos, hg, h1.symm, h2.symm⟩
    · have hg' : commitOk db i.idempotentKey i.userId ty a = false := by
        simpa using hg
      by_cases hlb : jsOr (itemBalance db i.userId) 0 + ty.delta a < 0
      · simp [transactCore, hkey, huser, if_neg hpos, hg', if_pos hlb] at hrun
      · simp [transactCore, hkey, huser, if_neg hpos, hg', if_neg hlb] at hrun

/-! ## Claim theorems -/

/-- C9: account creation overwrites. For every accountId (in particular
one that already exists), createUser unconditionally replaces the stored
item with a fresh one carrying the new balance and new createdAt and
updatedAt timestamps, leaves every other account untouched, and raises
no error (the function is total and its PutCommand carries no
insert-if-absent condition). -/
theorem C9_createUser_overwrites (db : Db) (userId : String) (b : ℚ) :
    (createUser db userId b).users.get userId =
      some ⟨userId, some b, some db.counter, some db.counter⟩ ∧
    ∀ k, k ≠ userId → (createUser db userId b).users.get k = db.users.get k := by
  exact ⟨Store.get_put_same .., fun k hk => Store.get_put_ne _ _ _ _ hk⟩

/-- C3 counterexample: create account u with balance 100, credit 30 with
key k1 (stored record newBalance 130), credit 50 with key k2 (current
balance now 180), then replay key k1. The replay returns newBalance 130
(the record's stored snapshot), while the account's current balance is
180 — so the step-1 probe does NOT re-read the account as the claim
states. -/
theorem C3_counterexample :
    (transact
       (transact
         (transact (createUser Db.empty "u" 100)
           ⟨"k1", "u", "30", "credit"⟩).2
         ⟨"k2", "u", "50", "credit"⟩).2
       ⟨"k1", "u", "30", "credit"⟩).1 =
      .ok ⟨true, 1, 130, some msgIdem⟩ ∧
    getCurrentBalance
      (transact
        (transact (createUser Db.empty "u" 100)
          ⟨"k1", "u", "30", "credit"⟩).2
        ⟨"k2", "u", "50", "credit"⟩).2 "u" = .ok ⟨"u", 180⟩ ∧
    (130 : ℚ) ≠ 180 := by
  with_unfolding_all decide

/-- C3 amended: for every ApplyTransaction call whose idempotency key
already has a recorded transaction at the step-1 probe, the call returns
that record's transactionId together with the record's stored newBalance
snapshot (the Account Store is not re-read at the probe; a current-balance
re-read happens only in the duplicate-key branch of commit rejection),
marked as a replay, with the state unchanged. -/
theorem C3_amended_replay_snapshot (db : Db) (i : TransactInput) (a : ℚ)
    (ty : TxType) (r : TxItem)
    (hval : validate i = .ok (.fin a, ty))
    (hrec : db.txs.get i.idempotentKey = some r) :
    transact db i =
      (.ok ⟨true, r.transactionId, r.newBalance, some msgIdem⟩, db) := by
  rw [transact_of_validate_ok db i a ty hval]
  exact transactCore_replay db i a ty r hrec

/-- C3 amended, witness: replaying key k1 of Scenario A returns the
record's stored id and snapshot balance with the state unchanged. -/
theorem C3_amended_witness :
    transact ⟨[("u", ⟨"u", some 130, some 0, some 1⟩)],
              [("k1", ⟨1, "u", 30, .credit, 130, 1⟩)], 2⟩
        ⟨"k1", "u", "30", "credit"⟩ =
      (.ok ⟨true, 1, 130, some msgIdem⟩,
       ⟨[("u", ⟨"u", some 130, some 0, some 1⟩)],
        [("k1", ⟨1, "u", 30, .credit, 130, 1⟩)], 2⟩) := by
  exact C3_amended_replay_snapshot
    ⟨[("u", ⟨"u", some 130, some 0, some 1⟩)],
     [("k1", ⟨1, "u", 30, .credit, 130, 1⟩)], 2⟩
    ⟨"k1", "u", "30", "credit"⟩ 30
    .credit ⟨1, "u", 30, .credit, 130, 1⟩
    (by with_unfolding_all decide) (by with_unfolding_all decide)

/-- C8: replay ignores request parameters. Two valid requests carrying
the same idempotency key whose key is already recorded produce the very
same successful replay outcome even if their accountId, amount and
direction differ: the result depends only on the stored record, and no
consistency check against the original request is performed. -/
theorem C8_replay_ignores_params (db : Db) (i1 i2 : TransactInput)
    (a1 a2 : ℚ) (t1 t2 : TxType) (r : TxItem)
    (h1 : validate i1 = .ok (.fin a1, t1))
    (h2 : validate i2 = .ok (.fin a2, t2))
    (hk : i2.idempotentKey = i1.idempotentKey)
    (hrec : db.txs.get i1.idempotentKey = some r) :
    transact db i1 =
      (.ok ⟨true, r.transactionId, r.newBalance, some msgIdem⟩, db) ∧
    transact db i2 = transact db i1 := by
  have e1 : transact db i1 =
      (.ok ⟨true, r.transactionId, r.newBalance, some msgIdem⟩, db) := by
    rw [transact_of_validate_ok db i1 a1 t1 h1]
    exact transactCore_replay db i1 a1 t1 r hrec
  have e2 : transact db i2 =
      (.ok ⟨true, r.transactionId, r.newBalance, some msgIdem⟩, db) := by
    rw [transact_of_validate_ok db i2 a2 t2 h2]
    exact transactCore_replay db i2 a2 t2 r (hk ▸ hrec)
  exact ⟨e1, e2.trans e1.symm⟩

/-- C8 witness: after crediting 30 to account u under key k1, a request
with the same key but a different account (v), amount (999) and
direction (debit) returns the identical replayed success. -/
theorem C8_witness :
    transact ⟨[("u", ⟨"u", some 130, some 0, some 1⟩)],
              [("k1", ⟨1, "u", 30, .credit, 130, 1⟩)], 2⟩
        ⟨"k1", "u", "30", "credit"⟩ =
      (.ok ⟨true, 1, 130, some msgIdem⟩,
       ⟨[("u", ⟨"u", some 130, some 0, some 1⟩)],
        [("k1", ⟨1, "u", 30, .credit, 130, 1⟩)], 2⟩) ∧
    transact ⟨[("u", ⟨"u", some 130, some 0, some 1⟩)],
              [("k1", ⟨1, "u", 30, .credit, 130, 1⟩)], 2⟩
        ⟨"k1", "v", "999", "debit"⟩ =
      transact ⟨[("u", ⟨"u", some 130, some 0, some 1⟩)],
                [("k1", ⟨1, "u", 30, .credit, 130, 1⟩)], 2⟩
        ⟨"k1", "u", "30", "credit"⟩ := by
  exact C8_replay_ignores_params
    ⟨[("u", ⟨"u", some 130, some 0, some 1⟩)],
     [("k1", ⟨1, "u", 30, .credit, 130, 1⟩)], 2⟩
    ⟨"k1", "u", "30", "credit"⟩
    ⟨"k1", "v", "999", "debit"⟩ 30 999 .credit .debit
    ⟨1, "u", 30, .credit, 130, 1⟩
    (by with_unfolding_all decide) (by with_unfolding_all decide)
    (by with_unfolding_all decide) (by with_unfolding_all decide)

/-- C5: rejection atomicity. A valid debit whose amount strictly exceeds
the account's current balance (with a fresh idempotency key, so the call
is not served as a replay) fails with InsufficientBalance and leaves the
whole state — account balances and the ledger of transaction records —
exactly as it was. -/
theorem C5_insufficient_rejection (db : Db) (i : TransactInput) (a : ℚ)
    (user : UserItem)
    (hval : validate i = .ok (.fin a, .debit))
    (hkey : db.txs.get i.idempotentKey = none)
    (huser : db.users.get i.userId = some user)
    (hgt : jsOr user.balance 0 < a) :
    transact db i = (.error .insufficientBalance, db) := by
  rw [transact_of_validate_ok db i a .debit hval]
  have hneg : jsOr user.balance 0 + TxType.delta .debit a < 0 := by
    simp only [TxType.delta]
    linarith
  simp [transactCore, hkey, huser, hneg]

/-- C5 witness: Scenario B — account with balance 20, debit 50 under key
k2 fails with InsufficientBalance and the state is unchanged. -/
theorem C5_witness :
    transact (createUser Db.empty "u" 20) ⟨"k2", "u", "50", "debit"⟩ =
      (.error .insufficientBalance, createUser Db.empty "u" 20) := by
  exact C5_insufficient_rejection (createUser Db.empty "u" 20)
    ⟨"k2", "u", "50", "debit"⟩ 50 ⟨"u", some 20, some 0, some 0⟩
    (by with_unfolding_all decide) (by with_unfolding_all decide)
    (by with_unfolding_all decide) (by with_unfolding_all decide)

/-- JS parseFloat accepts the Infinity literal: "Infinity" parses to
+Infinity, which passes the source's validation (isNaN false, <= 0
false), so such a call proceeds to storage — a debit of Infinity reads
the ledger and the account and then fails the optimistic pre-check with
InsufficientBalance (finite balance minus Infinity is negatively
infinite), and a credit of Infinity reaches the atomic commit where the
document client rejects the non-finite number; neither is classified as
InvalidInput. "-Infinity" parses to -Infinity, which the validation
rejects as non-positive before any storage access. -/
theorem infinity_amount_behavior :
    parseFloat "Infinity" = some .posInf ∧
    parseFloat "-Infinity" = some .negInf ∧
    validate ⟨"k", "u", "Infinity", "debit"⟩ = .ok (.posInf, .debit) ∧
    transact (createUser Db.empty "u" 100) ⟨"k", "u", "Infinity", "debit"⟩ =
      (.error .insufficientBalance, createUser Db.empty "u" 100) ∧
    transact (createUser Db.empty "u" 100) ⟨"k", "u", "Infinity", "credit"⟩ =
      (.error .nonFiniteAmount, createUser Db.empty "u" 100) ∧
    validate ⟨"k", "u", "-Infinity", "debit"⟩ = .error .amountNotPositive := by
  with_unfolding_all decide

/-- C1: idempotent replay. If the idempotency key is fresh and the first
call succeeds (necessarily freshly, with no replay marker), then the
identical second sequential call succeeds as a replay: same
transactionId, same returned newBalance, the replay marker set, and the
state — in particular the account balance, which equals the returned
balance — exactly as the first call left it, so the delta is applied
exactly once. -/
theorem C1_idempotent_replay (db db1 : Db) (i : TransactInput)
    (out1 : TransactOutput)
    (hkey : db.txs.get i.idempotentKey = none)
    (h1 : transact db i = (.ok out1, db1)) :
    ∃ out2 : TransactOutput,
      transact db1 i = (.ok out2, db1) ∧
      out2.transactionId = out1.transactionId ∧
      out2.newBalance = out1.newBalance ∧
      out2.message.isSome = true ∧
      out1.message = none ∧
      itemBalance db1 i.userId = some out1.newBalance := by
  cases hv : validate i with
  | error e =>
      rw [transact_of_validate_error db i e hv] at h1
      simp at h1
  | ok p =>
      obtain ⟨n, ty⟩ := p
      cases n with
      | posInf =>
          have ht : transact db i = transactInfinite db i ty.isDebit := by
            simp [transact, hv]
          rw [ht] at h1
          exact absurd h1 (transactInfinite_not_ok db i _ out1 db1 hkey)
      | negInf =>
          have ht : transact db i = transactInfinite db i (!ty.isDebit) := by
            simp [transact, hv]
          rw [ht] at h1
          exact absurd h1 (transactInfinite_not_ok db i _ out1 db1 hkey)
      | fin a =>
        rw [transact_of_validate_ok db i a ty hv] at h1
        cases hu : db.users.get i.userId with
        | none => simp [transactCore, hkey, hu] at h1
        | some user =>
            obtain ⟨hpos, hg, hout, hdb⟩ :=
              transactCore_ok_fresh db i a ty user out1 db1 hkey hu h1
            subst hdb
            refine ⟨⟨true, db.counter,
              jsOr user.balance 0 + ty.delta a, some msgIdem⟩, ?_, ?_, ?_, ?_, ?_, ?_⟩
            · rw [transact_of_validate_ok _ i a ty hv]
              exact transactCore_replay _ i a ty _ (commitWrite_txs_same db i a _ ty)
            · rw [hout]
            · rw [hout]
            · rfl
            · rw [hout]
            · rw [hout]
              exact itemBalance_commitWrite db i a _ ty user hu

/-- C1 witness: Scenario A — balance 100, credit 30 under key k1, then
the identical call again (instantiated via the claim theorem). -/
theorem C1_witness :
    ∃ out2 : TransactOutput,
      transact ⟨[("u", ⟨"u", some 130, some 0, some 1⟩)],
                [("k1", ⟨1, "u", 30, .credit, 130, 1⟩)], 2⟩
          ⟨"k1", "u", "30", "credit"⟩ =
        (.ok out2,
         ⟨[("u", ⟨"u", some 130, some 0, some 1⟩)],
          [("k1", ⟨1, "u", 30, .credit, 130, 1⟩)], 2⟩) ∧
      out2.transactionId = TransactOutput.transactionId ⟨true, 1, 130, none⟩ ∧
      out2.newBalance = TransactOutput.newBalance ⟨true, 1, 130, none⟩ ∧
      out2.message.isSome = true ∧
      TransactOutput.message ⟨true, 1, 130, none⟩ = none ∧
      itemBalance ⟨[("u", ⟨"u", some 130, some 0, some 1⟩)],
                   [("k1", ⟨1, "u", 30, .credit, 130, 1⟩)], 2⟩ "u" =
        some (TransactOutput.newBalance ⟨true, 1, 130, none⟩) := by
  exact C1_idempotent_replay (createUser Db.empty "u" 100)
    ⟨[("u", ⟨"u", some 130, some 0, some 1⟩)],
     [("k1", ⟨1, "u", 30, .credit, 130, 1⟩)], 2⟩
    ⟨"k1", "u", "30", "credit"⟩ ⟨true, 1, 130, none⟩
    (by with_unfolding_all decide) (by with_unfolding_all decide)

/-- C6: fresh-success postcondition. A successful call on an existing
account under a fresh idempotency key is not a replay; the stored
account balance becomes currentBalance plus amount for credit and minus
amount for debit; the returned newBalance equals that post-commit stored
balance (the re-read value); and exactly one new TransactionRecord
appears — the fresh key now maps to a record carrying this newBalance
while every other key's record is unchanged. -/
theorem C6_fresh_success (db db' : Db) (i : TransactInput) (a : ℚ)
    (ty : TxType) (user : UserItem) (out : TransactOutput)
    (hval : validate i = .ok (.fin a, ty))
    (hkey : db.txs.get i.idempotentKey = none)
    (huser : db.users.get i.userId = some user)
    (hrun : transact db i = (.ok out, db')) :
    out.message = none ∧
    itemBalance db' i.userId = some (jsOr user.balance 0 + ty.delta a) ∧
    out.newBalance = jsOr user.balance 0 + ty.delta a ∧
    (∃ r : TxItem, db'.txs.get i.idempotentKey = some r ∧
        r.newBalance = out.newBalance ∧ r.amount = a ∧ r.type = ty) ∧
    (∀ k, k ≠ i.idempotentKey → db'.txs.get k = db.txs.get k) := by
  rw [transact_of_validate_ok db i a ty hval] at hrun
  obtain ⟨hpos, hg, hout, hdb⟩ :=
    transactCore_ok_fresh db i a ty user out db' hkey huser hrun
  subst hdb
  refine ⟨by rw [hout], itemBalance_commitWrite db i a _ ty user huser,
          by rw [hout], ?_, ?_⟩
  · exact ⟨⟨db.counter, i.userId, a, ty, jsOr user.balance 0 + ty.delta a,
            db.counter⟩,
      commitWrite_txs_same db i a _ ty, by rw [hout], rfl, rfl⟩
  · exact fun k hk => commitWrite_txs_ne db i a _ ty k hk

/-- C6 witness: balance 100, credit 30 under fresh key k1 — balance
becomes 130, returned as newBalance, no replay marker, one new record
(instantiated via the claim theorem). -/
theorem C6_witness :
    TransactOutput.message ⟨true, 1, 130, none⟩ = none ∧
    itemBalance ⟨[("u", ⟨"u", some 130, some 0, some 1⟩)],
                 [("k1", ⟨1, "u", 30, .credit, 130, 1⟩)], 2⟩ "u" =
      some (jsOr (some (100 : ℚ)) 0 + TxType.delta .credit 30) ∧
    TransactOutput.newBalance ⟨true, 1, 130, none⟩ =
      jsOr (some (100 : ℚ)) 0 + TxType.delta .credit 30 ∧
    (∃ r : TxItem,
        (Db.txs ⟨[("u", ⟨"u", some 130, some 0, some 1⟩)],
                 [("k1", ⟨1, "u", 30, .credit, 130, 1⟩)], 2⟩).get "k1" =
          some r ∧
        r.newBalance = TransactOutput.newBalance ⟨true, 1, 130, none⟩ ∧
        r.amount = 30 ∧ r.type = .credit) ∧
    (∀ k, k ≠ "k1" →
       (Db.txs ⟨[("u", ⟨"u", some 130, some 0, some 1⟩)],
                [("k1", ⟨1, "u", 30, .credit, 130, 1⟩)], 2⟩).get k =
         (Db.txs (createUser Db.empty "u" 100)).get k) := by
  have h := C6_fresh_success (createUser Db.empty "u" 100)
    ⟨[("u", ⟨"u", some 130, some 0, some 1⟩)],
     [("k1", ⟨1, "u", 30, .credit, 130, 1⟩)], 2⟩
    ⟨"k1", "u", "30", "credit"⟩ 30 .credit ⟨"u", some 100, some 0, some 0⟩
    ⟨true, 1, 130, none⟩
    (by with_unfolding_all decide) (by with_unfolding_all decide)
    (by with_unfolding_all decide) (by with_unfolding_all decide)
  exact h

/-- C10: a missing (or falsy) balance attribute defaults to 0. On an
account item whose balance attribute is absent, getCurrentBalance
succeeds returning balance 0, and a valid fresh-key credit of amount a
succeeds treating the current balance as 0, so the returned newBalance
is exactly a. -/
theorem C10_missing_balance_zero (db : Db) (i : TransactInput) (a : ℚ)
    (user : UserItem)
    (hval : validate i = .ok (.fin a, .credit))
    (hkey : db.txs.get i.idempotentKey = none)
    (huser : db.users.get i.userId = some user)
    (hb : user.balance = none) :
    getCurrentBalance db i.userId = .ok ⟨user.userId, 0⟩ ∧
    (transact db i).1 = .ok ⟨true, db.counter, a, none⟩ := by
  obtain ⟨hpos, -, huid, -, -⟩ := validate_ok_fin_facts i a .credit hval
  constructor
  · simp [getCurrentBalance, huid, huser, hb, jsOr]
  · rw [transact_of_validate_ok db i a .credit hval]
    have hcur : jsOr user.balance 0 + TxType.delta .credit a = a := by
      simp [hb, jsOr, TxType.delta]
    have hguard : commitOk db i.idempotentKey i.userId .credit a = true := by
      simp [commitOk, hkey]
    rw [transactCore_fresh db i a .credit user hkey huser
        (by rw [hcur]; exact le_of_lt hpos) hguard]
    simp [hcur]

/-- C10 witness: an account item stored without a balance attribute reads
as balance 0 and a credit of 5 yields newBalance 5 (instantiated via the
claim theorem). -/
theorem C10_witness :
    getCurrentBalance ⟨[("u", ⟨"u", none, some 0, some 0⟩)], [], 1⟩ "u" =
      .ok ⟨"u", 0⟩ ∧
    (transact ⟨[("u", ⟨"u", none, some 0, some 0⟩)], [], 1⟩
        ⟨"k", "u", "5", "credit"⟩).1 =
      .ok ⟨true, 1, 5, none⟩ := by
  exact C10_missing_balance_zero
    ⟨[("u", ⟨"u", none, some 0, some 0⟩)], [], 1⟩
    ⟨"k", "u", "5", "credit"⟩ 5
    ⟨"u", none, some 0, some 0⟩
    (by with_unfolding_all decide) (by with_unfolding_all decide)
    (by with_unfolding_all decide) (by with_unfolding_all decide)

theorem dbNonneg_empty : dbNonneg Db.empty := by
  intro p hp
  simp [Db.empty] at hp

theorem dbNonneg_createUser (db : Db) (u : String) (b : ℚ) (hb : 0 ≤ b)
    (h : dbNonneg db) : dbNonneg (createUser db u b) := by
  intro p hp
  simp only [createUser] at hp
  rcases Store.mem_put _ _ _ _ hp with rfl | hp
  · simpa using hb
  · exact h p hp

theorem dbNonneg_commitWrite (db : Db) (i : TransactInput) (a p : ℚ)
    (ty : TxType) (user : UserItem)
    (huser : db.users.get i.userId = some user)
    (hpos : 0 ≤ jsOr user.balance 0 + ty.delta a)
    (h : dbNonneg db) : dbNonneg (commitWrite db i a ty p) := by
  intro q hq
  rw [jsOr_zero] at hpos
  have hu : (commitWrite db i a ty p).users =
      db.users.put i.userId
        ⟨user.userId, some (user.balance.getD 0 + ty.delta a),
         user.createdAt, some db.counter⟩ :=
    commitWrite_users db i a p ty user huser
  rw [hu] at hq
  rcases Store.mem_put _ _ _ _ hq with rfl | hq
  · simpa using hpos
  · exact h q hq

theorem transactCore_snd (db : Db) (i : TransactInput) (a : ℚ)
    (ty : TxType) :
    (transactCore db i a ty).2 = db ∨
    ∃ user : UserItem, db.users.get i.userId = some user ∧
      0 ≤ jsOr user.balance 0 + ty.delta a ∧
      (transactCore db i a ty).2 =
        commitWrite db i a ty (jsOr user.balance 0 + ty.delta a) := by
  cases hk : db.txs.get i.idempotentKey with
  | some r => left; simp [transactCore, hk]
  | none =>
      cases hu : db.users.get i.userId with
      | none => left; simp [transactCore, hk, hu]
      | some user =>
          by_cases hpos : jsOr user.balance 0 + ty.delta a < 0
          · left; simp [transactCore, hk, hu, hpos]
          · by_cases hg : commitOk db i.idempotentKey i.userId ty a = true
            · right
              refine ⟨user, rfl, not_lt.mp hpos, ?_⟩
              rw [transactCore_fresh db i a ty user hk hu (not_lt.mp hpos) hg]
            · left
              have hg' : commitOk db i.idempotentKey i.userId ty a = false := by
                simpa using hg
              by_cases hlb : jsOr (itemBalance db i.userId) 0 + ty.delta a < 0
              · simp [transactCore, hk, hu, if_neg hpos, hg', hlb]
              · simp [transactCore, hk, hu, if_neg hpos, hg', hlb]

theorem dbNonneg_transact (db : Db) (i : TransactInput) (h : dbNonneg db) :
    dbNonneg (transact db i).2 := by
  cases hv : validate i with
  | error e => rw [transact_of_validate_error db i e hv]; exact h
  | ok pr =>
      obtain ⟨n, ty⟩ := pr
      cases n with
      | posInf =>
          have ht : transact db i = transactInfinite db i ty.isDebit := by
            simp [transact, hv]
          rw [ht, transactInfinite_snd]
          exact h
      | negInf =>
          have ht : transact db i = transactInfinite db i (!ty.isDebit) := by
            simp [transact, hv]
          rw [ht, transactInfinite_snd]
          exact h
      | fin a =>
          rw [transact_of_validate_ok db i a ty hv]
          rcases transactCore_snd db i a ty with hs | ⟨user, huser, hpos, hs⟩
          · rw [hs]; exact h
          · rw [hs]; exact dbNonneg_commitWrite db i a _ ty user huser hpos h

theorem dbNonneg_runOp (db : Db) (op : Op) (hop : createNonneg op = true)
    (h : dbNonneg db) : dbNonneg (runOp db op) := by
  cases op with
  | createOp u b =>
      have hb : 0 ≤ b := by simpa [createNonneg] using hop
      exact dbNonneg_createUser db u b hb h
  | transactOp i => exact dbNonneg_transact db i h
  | getBalanceOp u => exact h

theorem dbNonneg_runOps (db : Db) (ops : List Op) (h : dbNonneg db)
    (hc : ∀ op ∈ ops, createNonneg op = true) :
    dbNonneg (runOps db ops) := by
  induction ops generalizing db with
  | nil => exact h
  | cons op rest ih =>
      show dbNonneg (runOps (runOp db op) rest)
      exact ih (runOp db op)
        (dbNonneg_runOp db op (hc op (List.mem_cons_self _ _)) h)
        (fun o ho => hc o (List.mem_cons_of_mem _ ho))

theorem getCurrentBalance_nonneg (db : Db) (u : String)
    (out : GetBalanceOutput) (h : dbNonneg db)
    (hg : getCurrentBalance db u = .ok out) : 0 ≤ out.balance := by
  unfold getCurrentBalance at hg
  by_cases hu : u = ""
  · simp [hu] at hg
  · rw [if_neg hu] at hg
    cases hi : db.users.get u with
    | none => simp [hi] at hg
    | some item =>
        simp only [hi, Except.ok.injEq] at hg
        have hmem := Store.get_mem db.users u item hi
        have := h (u, item) hmem
        rw [← hg]
        simpa [jsOr_zero] using this

/-- C2: non-negativity invariant. Starting from the empty state, after
any sequence of operations whose account creations all carry a
non-negative initial balance, every stored account balance is
non-negative, and getCurrentBalance never returns a negative value. -/
theorem C2_nonneg_invariant (ops : List Op)
    (hc : ∀ op ∈ ops, createNonneg op = true) :
    dbNonneg (runOps Db.empty ops) ∧
    ∀ (u : String) (out : GetBalanceOutput),
      getCurrentBalance (runOps Db.empty ops) u = .ok out →
      0 ≤ out.balance := by
  have hinv := dbNonneg_runOps Db.empty ops dbNonneg_empty hc
  exact ⟨hinv, fun u out hg => getCurrentBalance_nonneg _ u out hinv hg⟩

/-- C2 witness: a concrete operation sequence (create with 100, debit 30,
read balance) keeps every balance non-negative (instantiated via the
claim theorem). -/
theorem C2_witness :
    dbNonneg (runOps Db.empty
      [.createOp "u" 100, .transactOp ⟨"k1", "u", "30", "debit"⟩,
       .getBalanceOp "u"]) := by
  exact (C2_nonneg_invariant
    [.createOp "u" 100, .transactOp ⟨"k1", "u", "30", "debit"⟩,
     .getBalanceOp "u"] (by with_unfolding_all decide)).1

/-- C4 counterexample: a debit of 5 passes validation and the optimistic
pre-check (balance 10), but the atomic commit is evaluated against a
state with balance 2, so the balance guard rejects it (commitOk false);
the re-probe finds no record for the key and the re-read balance (100)
makes the recomputed projection non-negative — the exact scenario of the
claim. The call nevertheless returns the ConcurrencyConflict error after
exactly one TransactWriteCommand submission: it does not retry the whole
operation (a retry would make the submission count 2). -/
theorem C4_counterexample :
    commitOk ⟨[("u", ⟨"u", some 2, some 0, some 0⟩)], [], 1⟩
      "k" "u" .debit 5 = false ∧
    (Db.txs ⟨[("u", ⟨"u", some 100, some 0, some 0⟩)], [], 1⟩).get "k" =
      none ∧
    0 ≤ jsOr (itemBalance
          ⟨[("u", ⟨"u", some 100, some 0, some 0⟩)], [], 1⟩ "u") 0 +
        TxType.delta .debit 5 ∧
    transactTrace ⟨"k", "u", "5", "debit"⟩
      ⟨[("u", ⟨"u", some 10, some 0, some 0⟩)], [], 1⟩
      ⟨[("u", ⟨"u", some 10, some 0, some 0⟩)], [], 1⟩
      ⟨[("u", ⟨"u", some 2, some 0, some 0⟩)], [], 1⟩
      ⟨[("u", ⟨"u", some 2, some 0, some 0⟩)], [], 1⟩
      ⟨[("u", ⟨"u", some 100, some 0, some 0⟩)], [], 1⟩
      ⟨[("u", ⟨"u", some 100, some 0, some 0⟩)], [], 1⟩ =
      (.error .concurrentRetry, 1) ∧
    (1 : ℕ) ≠ 2 := by
  with_unfolding_all decide

/-- C4 amended: when the atomic commit is rejected with no record found
at the re-probe and the re-read shows a non-negative recomputed
projection, the call fails immediately with the retryable
ConcurrencyConflict error — the retry is left to the caller; the call
itself performs no internal retry, making exactly one
TransactWriteCommand submission here and at most one on every path
(so duplicate-key and insufficient-balance outcomes are never retried
either). -/
theorem C4_amended_no_internal_retry (i : TransactInput) (a : ℚ)
    (ty : TxType) (user : UserItem)
    (dbProbe dbUser dbCommit dbAfter dbCheck dbBal : Db)
    (hval : validate i = .ok (.fin a, ty))
    (hprobe : dbProbe.txs.get i.idempotentKey = none)
    (huser : dbUser.users.get i.userId = some user)
    (hpre : 0 ≤ jsOr user.balance 0 + ty.delta a)
    (hguard : commitOk dbCommit i.idempotentKey i.userId ty a = false)
    (hcheck : dbCheck.txs.get i.idempotentKey = none)
    (hfav : 0 ≤ jsOr (itemBalance dbBal i.userId) 0 + ty.delta a) :
    transactTrace i dbProbe dbUser dbCommit dbAfter dbCheck dbBal =
      (.error .concurrentRetry, 1) ∧
    ∀ e1 e2 e3 e4 e5 e6 : Db,
      (transactTrace i e1 e2 e3 e4 e5 e6).2 ≤ 1 := by
  constructor
  · simp [transactTrace, hval, hprobe, huser, hguard, hcheck,
          if_neg (not_lt.mpr hpre), if_neg (not_lt.mpr hfav)]
  · intro e1 e2 e3 e4 e5 e6
    unfold transactTrace
    repeat first | split | simp

/-- C4 amended, witness: the scenario of the counterexample instantiated
through the amended claim theorem. -/
theorem C4_witness :
    transactTrace ⟨"k", "u", "5", "debit"⟩
      ⟨[("u", ⟨"u", some 10, some 0, some 0⟩)], [], 1⟩
      ⟨[("u", ⟨"u", some 10, some 0, some 0⟩)], [], 1⟩
      ⟨[("u", ⟨"u", some 2, some 0, some 0⟩)], [], 1⟩
      ⟨[("u", ⟨"u", some 2, some 0, some 0⟩)], [], 1⟩
      ⟨[("u", ⟨"u", some 100, some 0, some 0⟩)], [], 1⟩
      ⟨[("u", ⟨"u", some 100, some 0, some 0⟩)], [], 1⟩ =
      (.error .concurrentRetry, 1) := by
  exact (C4_amended_no_internal_retry ⟨"k", "u", "5", "debit"⟩ 5 .debit
    ⟨"u", some 10, some 0, some 0⟩
    ⟨[("u", ⟨"u", some 10, some 0, some 0⟩)], [], 1⟩
    ⟨[("u", ⟨"u", some 10, some 0, some 0⟩)], [], 1⟩
    ⟨[("u", ⟨"u", some 2, some 0, some 0⟩)], [], 1⟩
    ⟨[("u", ⟨"u", some 2, some 0, some 0⟩)], [], 1⟩
    ⟨[("u", ⟨"u", some 100, some 0, some 0⟩)], [], 1⟩
    ⟨[("u", ⟨"u", some 100, some 0, some 0⟩)], [], 1⟩
    (by with_unfolding_all decide) (by with_unfolding_all decide)
    (by with_unfolding_all decide) (by with_unfolding_all decide)
    (by with_unfolding_all decide) (by with_unfolding_all decide)
    (by with_unfolding_all decide)).1

end Wallet
